import Mathlib

/-!
Verification of the Battleship network-game repository
(`protocol.py`, `server.py`, `battleship.py`, `client.py`).

The Python sources are shallowly embedded: byte strings become `List Nat`
(each element `< 256`), machine integers become `Nat` with explicit range
hypotheses where the Python `struct` module enforces them, Python
exceptions become `Except`/`Option` results, and mutable objects become
explicit state passing.
-/

namespace BattleshipProto

/-! ## Byte-level helpers (`struct.pack`/`struct.unpack` big-endian fields) -/

/-- Big-endian 4-byte encoding of a `u32`, as produced by `struct.pack "!I"`
and by `int.to_bytes(4, 'big')` in `protocol.py`. -/
def u32be (n : Nat) : List Nat :=
  [n / 2 ^ 24 % 256, n / 2 ^ 16 % 256, n / 2 ^ 8 % 256, n % 256]

/-- Big-endian 2-byte encoding of a `u16`, as produced by `struct.pack "!H"`. -/
def u16be (n : Nat) : List Nat :=
  [n / 2 ^ 8 % 256, n % 256]

/-- Big-endian read of four bytes (`struct.unpack "!I"`). -/
def be4 (a b c d : Nat) : Nat :=
  ((a * 256 + b) * 256 + c) * 256 + d

/-- Big-endian read of two bytes (`struct.unpack "!H"`). -/
def be2 (a b : Nat) : Nat :=
  a * 256 + b

/-! ## CRC-32 (`binascii.crc32`)

`binascii.crc32` is the standard reflected CRC-32: initial state
`0xFFFFFFFF`, per byte the state is xored with the byte and then shifted
right eight times, xoring in the reflected polynomial `0xEDB88320` when
the low bit is set; the final state is xored with `0xFFFFFFFF`. -/

/-- One shift-xor round of the reflected CRC-32. -/
def crcRound (s : Nat) : Nat :=
  if s % 2 = 1 then (s / 2) ^^^ 0xEDB88320 else s / 2

/-- Eight shift-xor rounds. -/
def crcRound8 (s : Nat) : Nat :=
  crcRound (crcRound (crcRound (crcRound (crcRound (crcRound (crcRound (crcRound s)))))))

/-- Absorb one input byte into the CRC state. -/
def crcByte (s b : Nat) : Nat :=
  crcRound8 (s ^^^ b)

/-- Absorb a byte string into the CRC state. -/
def crcFold (s : Nat) : List Nat → Nat
  | [] => s
  | b :: bs => crcFold (crcByte s b) bs

/-- `binascii.crc32(data)` with the default initial value. -/
def crc32 (data : List Nat) : Nat :=
  crcFold 0xFFFFFFFF data ^^^ 0xFFFFFFFF

/-! ## `protocol.py`: `PacketType` and `Packet` -/

/-- The `PacketType` `IntEnum` of `protocol.py` (lines 7-11).  It has
exactly the four members `DATA = 0`, `ACK = 1`, `NACK = 2`, `ERROR = 3`. -/
inductive PacketType where
  | DATA
  | ACK
  | NACK
  | ERROR
deriving DecidableEq

/-- The integer value of a `PacketType` member. -/
def PacketType.value : PacketType → Nat
  | .DATA => 0
  | .ACK => 1
  | .NACK => 2
  | .ERROR => 3

/-- The enum constructor call `PacketType(n)`: `some` member with that
value, or `none` for the `ValueError` Python raises when no member has
value `n`. -/
def PacketType.ofValue (n : Nat) : Option PacketType :=
  if n = 0 then some .DATA
  else if n = 1 then some .ACK
  else if n = 2 then some .NACK
  else if n = 3 then some .ERROR
  else none

/-- The errors `Packet.unpack` can raise (all `ValueError` in Python,
distinguished by message). -/
inductive DecodeError where
  /-- `"Invalid packet length"` (fewer than 11 bytes). -/
  | invalidPacketLength
  /-- the `ValueError` raised by `PacketType(ptype)` for an unknown value. -/
  | invalidPacketType
  /-- `"Data length mismatch"`. -/
  | dataLengthMismatch
  /-- `"Checksum mismatch"`. -/
  | checksumMismatch
deriving DecidableEq

/-- A `Packet` of `protocol.py`: sequence number, type, payload.  The
`checksum` attribute is not stored because `__init__` always computes it
from the other three fields (`_calculate_checksum`); `unpack` only
returns a packet whose transmitted checksum equals that computed value. -/
structure Packet where
  seq_num : Nat
  ptype : PacketType
  data : List Nat
deriving DecidableEq

/-- `Packet._calculate_checksum`: CRC-32 over the header-without-checksum
(`struct.pack "!IBH"`) followed by the payload. -/
def Packet.calculate_checksum (p : Packet) : Nat :=
  crc32 (u32be p.seq_num ++ [p.ptype.value] ++ u16be p.data.length ++ p.data)

/-- `Packet.pack`: header (`struct.pack "!IBH4s"`) followed by the payload.
`struct.pack` raises for a sequence number outside `u32` or a payload
length outside `u16`, hence the `Option`. -/
def Packet.pack (p : Packet) : Option (List Nat) :=
  if p.seq_num < 2 ^ 32 ∧ p.data.length < 2 ^ 16 then
    some (u32be p.seq_num ++ [p.ptype.value] ++ u16be p.data.length ++
      u32be p.calculate_checksum ++ p.data)
  else none

/-- `Packet.unpack` (protocol.py lines 54-77): reject fewer than 11 bytes,
parse the header fields, convert the type byte with `PacketType(...)`,
check the declared length against the actual payload length, then check
the transmitted checksum against the recomputed CRC-32. -/
def Packet.unpack (raw : List Nat) : Except DecodeError Packet :=
  match raw with
  | s0 :: s1 :: s2 :: s3 :: tv :: l0 :: l1 :: c0 :: c1 :: c2 :: c3 :: data =>
    let seq := be4 s0 s1 s2 s3
    let len := be2 l0 l1
    let chk := be4 c0 c1 c2 c3
    match PacketType.ofValue tv with
    | none => .error .invalidPacketType
    | some pt =>
      if len ≠ data.length then .error .dataLengthMismatch
      else if chk ≠ Packet.calculate_checksum ⟨seq, pt, data⟩ then
        .error .checksumMismatch
      else .ok ⟨seq, pt, data⟩
  | _ => .error .invalidPacketLength

/-! ## Arithmetic facts about the byte-level helpers -/

theorem be4_u32be {n : Nat} (h : n < 2 ^ 32) :
    be4 (n / 2 ^ 24 % 256) (n / 2 ^ 16 % 256) (n / 2 ^ 8 % 256) (n % 256) = n := by
  unfold be4; omega

theorem be2_u16be {n : Nat} (h : n < 2 ^ 16) :
    be2 (n / 2 ^ 8 % 256) (n % 256) = n := by
  unfold be2; omega

theorem be4_inj {a b c d a' b' c' d' : Nat}
    (ha : a < 256) (hb : b < 256) (hc : c < 256) (hd : d < 256)
    (ha' : a' < 256) (hb' : b' < 256) (hc' : c' < 256) (hd' : d' < 256)
    (h : be4 a b c d = be4 a' b' c' d') : a = a' ∧ b = b' ∧ c = c' ∧ d = d' := by
  unfold be4 at h; omega

theorem be2_inj {a b a' b' : Nat}
    (ha : a < 256) (hb : b < 256) (ha' : a' < 256) (hb' : b' < 256)
    (h : be2 a b = be2 a' b') : a = a' ∧ b = b' := by
  unfold be2 at h; omega

theorem u32be_bytes_lt {n b : Nat} (hb : b ∈ u32be n) : b < 256 := by
  simp only [u32be, List.mem_cons, List.not_mem_nil, or_false] at hb
  rcases hb with h | h | h | h <;> subst h <;> exact Nat.mod_lt _ (by norm_num)

theorem u16be_bytes_lt {n b : Nat} (hb : b ∈ u16be n) : b < 256 := by
  simp only [u16be, List.mem_cons, List.not_mem_nil, or_false] at hb
  rcases hb with h | h <;> subst h <;> exact Nat.mod_lt _ (by norm_num)

theorem u32be_be4 {a b c d : Nat} (ha : a < 256) (hb : b < 256) (hc : c < 256)
    (hd : d < 256) : u32be (be4 a b c d) = [a, b, c, d] := by
  unfold u32be be4
  refine congrArg₂ (· :: ·) (by omega) ?_
  refine congrArg₂ (· :: ·) (by omega) ?_
  exact congrArg₂ (· :: ·) (by omega) (congrArg₂ (· :: ·) (by omega) rfl)

/-! ## CRC-32: range and injectivity facts

The reflected CRC-32 step is injective on 32-bit states; consequently two
inputs of equal length differing in exactly one byte have different CRC-32
values.  This is the burst-error-detection property `Packet.unpack` relies
on to reject single-byte header corruption. -/

theorem crcRound_lt {s : Nat} (h : s < 2 ^ 32) : crcRound s < 2 ^ 32 := by
  unfold crcRound
  split
  · exact Nat.xor_lt_two_pow (by omega) (by norm_num)
  · omega

theorem crcRound8_lt {s : Nat} (h : s < 2 ^ 32) : crcRound8 s < 2 ^ 32 :=
  crcRound_lt (crcRound_lt (crcRound_lt (crcRound_lt
    (crcRound_lt (crcRound_lt (crcRound_lt (crcRound_lt h)))))))

theorem crcByte_lt {s b : Nat} (hs : s < 2 ^ 32) (hb : b < 2 ^ 32) :
    crcByte s b < 2 ^ 32 :=
  crcRound8_lt (Nat.xor_lt_two_pow hs hb)

theorem crcFold_lt {bs : List Nat} (hbs : ∀ b ∈ bs, b < 2 ^ 32) {s : Nat}
    (hs : s < 2 ^ 32) : crcFold s bs < 2 ^ 32 := by
  induction bs generalizing s with
  | nil => exact hs
  | cons b bs ih =>
    exact ih (fun x hx => hbs x (List.mem_cons_of_mem _ hx))
      (crcByte_lt hs (hbs b (List.mem_cons_self _ _)))

theorem xor_left_cancel {a b c : Nat} (h : a ^^^ b = a ^^^ c) : b = c := by
  have := congrArg (a ^^^ ·) h
  simpa [Nat.xor_cancel_left] using this

theorem crcRound_inj {s t : Nat} (hs : s < 2 ^ 32) (ht : t < 2 ^ 32)
    (h : crcRound s = crcRound t) : s = t := by
  unfold crcRound at h
  by_cases hsp : s % 2 = 1 <;> by_cases htp : t % 2 = 1
  · rw [if_pos hsp, if_pos htp] at h
    have : s / 2 = t / 2 := by
      have h' := congrArg (· ^^^ 0xEDB88320) h
      simpa [Nat.xor_cancel_right] using h'
    omega
  · rw [if_pos hsp, if_neg htp] at h
    exfalso
    have h31 := congrArg (Nat.testBit · 31) h
    have hs31 : (s / 2).testBit 31 = false :=
      Nat.testBit_eq_false_of_lt (by omega)
    have ht31 : (t / 2).testBit 31 = false :=
      Nat.testBit_eq_false_of_lt (by omega)
    simp only [Nat.testBit_xor, hs31, ht31] at h31
    exact absurd h31 (by decide)
  · rw [if_neg hsp, if_pos htp] at h
    exfalso
    have h31 := congrArg (Nat.testBit · 31) h
    have hs31 : (s / 2).testBit 31 = false :=
      Nat.testBit_eq_false_of_lt (by omega)
    have ht31 : (t / 2).testBit 31 = false :=
      Nat.testBit_eq_false_of_lt (by omega)
    simp only [Nat.testBit_xor, hs31, ht31] at h31
    exact absurd h31 (by decide)
  · rw [if_neg hsp, if_neg htp] at h
    omega

theorem crcRound8_inj {s t : Nat} (hs : s < 2 ^ 32) (ht : t < 2 ^ 32)
    (h : crcRound8 s = crcRound8 t) : s = t := by
  unfold crcRound8 at h
  have l1 := crcRound_lt hs
  have l2 := crcRound_lt l1
  have l3 := crcRound_lt l2
  have l4 := crcRound_lt l3
  have l5 := crcRound_lt l4
  have l6 := crcRound_lt l5
  have l7 := crcRound_lt l6
  have m1 := crcRound_lt ht
  have m2 := crcRound_lt m1
  have m3 := crcRound_lt m2
  have m4 := crcRound_lt m3
  have m5 := crcRound_lt m4
  have m6 := crcRound_lt m5
  have m7 := crcRound_lt m6
  exact crcRound_inj hs ht (crcRound_inj l1 m1 (crcRound_inj l2 m2
    (crcRound_inj l3 m3 (crcRound_inj l4 m4 (crcRound_inj l5 m5
      (crcRound_inj l6 m6 (crcRound_inj l7 m7 h)))))))

theorem crcByte_inj_state {s t b : Nat} (hs : s < 2 ^ 32) (ht : t < 2 ^ 32)
    (hb : b < 2 ^ 32) (h : crcByte s b = crcByte t b) : s = t := by
  unfold crcByte at h
  have := crcRound8_inj (Nat.xor_lt_two_pow hs hb) (Nat.xor_lt_two_pow ht hb) h
  have h' := congrArg (· ^^^ b) this
  simpa [Nat.xor_cancel_right] using h'

theorem crcByte_ne_byte {s b b' : Nat} (hs : s < 2 ^ 32) (hb : b < 2 ^ 32)
    (hb' : b' < 2 ^ 32) (hne : b ≠ b') : crcByte s b ≠ crcByte s b' := by
  intro h
  unfold crcByte at h
  exact hne (xor_left_cancel
    (crcRound8_inj (Nat.xor_lt_two_pow hs hb) (Nat.xor_lt_two_pow hs hb') h))

theorem crcFold_inj {bs : List Nat} (hbs : ∀ b ∈ bs, b < 2 ^ 32)
    {s t : Nat} (hs : s < 2 ^ 32) (ht : t < 2 ^ 32)
    (h : crcFold s bs = crcFold t bs) : s = t := by
  induction bs generalizing s t with
  | nil => exact h
  | cons b bs ih =>
    have hb : b < 2 ^ 32 := hbs b (List.mem_cons_self _ _)
    have htl : ∀ x ∈ bs, x < 2 ^ 32 :=
      fun x hx => hbs x (List.mem_cons_of_mem _ hx)
    exact crcByte_inj_state hs ht hb
      (ih htl (crcByte_lt hs hb) (crcByte_lt ht hb) h)

theorem crcFold_cons (s b : Nat) (bs : List Nat) :
    crcFold s (b :: bs) = crcFold (crcByte s b) bs := rfl

theorem crcFold_append (s : Nat) (xs ys : List Nat) :
    crcFold s (xs ++ ys) = crcFold (crcFold s xs) ys := by
  induction xs generalizing s with
  | nil => rfl
  | cons x xs ih => exact ih (crcByte s x)

/-- Single-byte burst-error detection: two equal-length byte strings that
differ in exactly one byte have different CRC-32 values. -/
theorem crc32_ne_of_single_byte_ne (pre : List Nat) {suf : List Nat} {b b' : Nat}
    (hpre : ∀ x ∈ pre, x < 256) (hsuf : ∀ x ∈ suf, x < 256)
    (hb : b < 256) (hb' : b' < 256) (hne : b ≠ b') :
    crc32 (pre ++ b :: suf) ≠ crc32 (pre ++ b' :: suf) := by
  intro h
  unfold crc32 at h
  have h' : crcFold 0xFFFFFFFF (pre ++ b :: suf) =
      crcFold 0xFFFFFFFF (pre ++ b' :: suf) := by
    have := congrArg (· ^^^ 0xFFFFFFFF) h
    simpa [Nat.xor_cancel_right] using this
  rw [crcFold_append, crcFold_append] at h'
  have hs : crcFold 0xFFFFFFFF pre < 2 ^ 32 :=
    crcFold_lt (fun x hx => lt_trans (hpre x hx) (by norm_num)) (by norm_num)
  have hsuf32 : ∀ x ∈ suf, x < 2 ^ 32 :=
    fun x hx => lt_trans (hsuf x hx) (by norm_num)
  have hb32 : b < 2 ^ 32 := lt_trans hb (by norm_num)
  have hb32' : b' < 2 ^ 32 := lt_trans hb' (by norm_num)
  rw [crcFold_cons, crcFold_cons] at h'
  exact crcByte_ne_byte hs hb32 hb32' hne
    (crcFold_inj hsuf32 (crcByte_lt hs hb32) (crcByte_lt hs hb32') h')

theorem crc32_lt {data : List Nat} (hdata : ∀ b ∈ data, b < 256) :
    crc32 data < 2 ^ 32 :=
  Nat.xor_lt_two_pow
    (crcFold_lt (fun x hx => lt_trans (hdata x hx) (by norm_num)) (by norm_num))
    (by norm_num)

theorem ofValue_value (pt : PacketType) : PacketType.ofValue pt.value = some pt := by
  cases pt <;> rfl

theorem value_lt (pt : PacketType) : pt.value < 256 := by
  cases pt <;> simp [PacketType.value]

theorem ofValue_eq_some {n : Nat} {pt : PacketType}
    (h : PacketType.ofValue n = some pt) : pt.value = n := by
  unfold PacketType.ofValue at h
  split_ifs at h with h0 h1 h2 h3
  · injection h with h'; subst h'; simpa [PacketType.value] using h0.symm
  · injection h with h'; subst h'; simpa [PacketType.value] using h1.symm
  · injection h with h'; subst h'; simpa [PacketType.value] using h2.symm
  · injection h with h'; subst h'; simpa [PacketType.value] using h3.symm

theorem calculate_checksum_lt (p : Packet) (hdata : ∀ b ∈ p.data, b < 256) :
    p.calculate_checksum < 2 ^ 32 := by
  refine crc32_lt ?_
  intro b hb
  rcases List.mem_append.1 hb with hb | hb
  · rcases List.mem_append.1 hb with hb | hb
    · rcases List.mem_append.1 hb with hb | hb
      · exact u32be_bytes_lt hb
      · simp only [List.mem_singleton] at hb; subst hb; exact value_lt _
    · exact u16be_bytes_lt hb
  · exact hdata b hb

theorem u32be_split {n : Nat} (h : n < 2 ^ 32) :
    ∃ a b c d, a < 256 ∧ b < 256 ∧ c < 256 ∧ d < 256 ∧
      u32be n = [a, b, c, d] ∧ be4 a b c d = n :=
  ⟨_, _, _, _, Nat.mod_lt _ (by norm_num), Nat.mod_lt _ (by norm_num),
    Nat.mod_lt _ (by norm_num), Nat.mod_lt _ (by norm_num), rfl, be4_u32be h⟩

theorem u16be_split {n : Nat} (h : n < 2 ^ 16) :
    ∃ a b, a < 256 ∧ b < 256 ∧ u16be n = [a, b] ∧ be2 a b = n :=
  ⟨_, _, Nat.mod_lt _ (by norm_num), Nat.mod_lt _ (by norm_num), rfl,
    be2_u16be h⟩

/-- C1: for every sequence number representable as a `u32`, every member of
the `PacketType` enum, and every payload of fewer than `2^16` bytes,
decoding the bytes produced by encoding (`Packet.pack` then `Packet.unpack`)
succeeds and yields a packet with the same sequence number, type and
payload. -/
theorem decode_encode_roundtrip (seq : Nat) (pt : PacketType) (data : List Nat)
    (hseq : seq < 2 ^ 32) (hlen : data.length < 2 ^ 16)
    (hdata : ∀ b ∈ data, b < 256) :
    ∃ enc, Packet.pack ⟨seq, pt, data⟩ = some enc ∧
      Packet.unpack enc = .ok ⟨seq, pt, data⟩ := by
  have hchklt : Packet.calculate_checksum ⟨seq, pt, data⟩ < 2 ^ 32 :=
    calculate_checksum_lt _ hdata
  refine ⟨u32be seq ++ [pt.value] ++ u16be data.length ++
    u32be (Packet.calculate_checksum ⟨seq, pt, data⟩) ++ data, ?_, ?_⟩
  · unfold Packet.pack
    split
    · rfl
    next h => exact absurd ⟨hseq, hlen⟩ h
  · simp only [u32be, u16be, List.cons_append, List.nil_append, Packet.unpack]
    rw [be4_u32be hseq, be2_u16be hlen, ofValue_value, be4_u32be hchklt]
    simp

/-- Witness for the C1 theorem at a concrete packet. -/
theorem decode_encode_roundtrip_witness :
    ∃ enc, Packet.pack ⟨1, .DATA, [104, 105]⟩ = some enc ∧
      Packet.unpack enc = .ok ⟨1, .DATA, [104, 105]⟩ :=
  decode_encode_roundtrip 1 .DATA [104, 105] (by norm_num) (by norm_num)
    (by decide)

theorem unpack_cons_some {tv : Nat} {pt : PacketType}
    (hpt : PacketType.ofValue tv = some pt)
    (s0 s1 s2 s3 l0 l1 c0 c1 c2 c3 : Nat) (data : List Nat) :
    Packet.unpack (s0 :: s1 :: s2 :: s3 :: tv :: l0 :: l1 ::
        c0 :: c1 :: c2 :: c3 :: data) =
      (if be2 l0 l1 ≠ data.length then .error .dataLengthMismatch
       else if be4 c0 c1 c2 c3 ≠
           Packet.calculate_checksum ⟨be4 s0 s1 s2 s3, pt, data⟩ then
         .error .checksumMismatch
       else .ok ⟨be4 s0 s1 s2 s3, pt, data⟩) := by
  simp only [Packet.unpack]
  rw [hpt]

theorem unpack_cons_none {tv : Nat} (hpt : PacketType.ofValue tv = none)
    (s0 s1 s2 s3 l0 l1 c0 c1 c2 c3 : Nat) (data : List Nat) :
    Packet.unpack (s0 :: s1 :: s2 :: s3 :: tv :: l0 :: l1 ::
        c0 :: c1 :: c2 :: c3 :: data) = .error .invalidPacketType := by
  simp only [Packet.unpack]
  rw [hpt]


/-- C2: for every well-formed encoded packet, every header byte position and
every changed byte value, `Packet.unpack` on the mutated bytes fails with an
error instead of returning a packet; a mutated length byte fails with the
length-mismatch error and a mutated checksum byte fails with the
checksum-mismatch error. -/
theorem unpack_rejects_header_byte_mutation (seq : Nat) (pt : PacketType) (data : List Nat)
    (hseq : seq < 2 ^ 32) (hlen : data.length < 2 ^ 16)
    (hdata : ∀ b ∈ data, b < 256)
    (enc : List Nat) (henc : Packet.pack ⟨seq, pt, data⟩ = some enc)
    (i : Nat) (hi : i < 11) (b' : Nat) (hb' : b' < 256)
    (hne : enc.getD i 0 ≠ b') :
    (∃ e, Packet.unpack (enc.set i b') = .error e) ∧
    ((i = 5 ∨ i = 6) → Packet.unpack (enc.set i b') = .error .dataLengthMismatch) ∧
    (7 ≤ i → Packet.unpack (enc.set i b') = .error .checksumMismatch) := by
  have hchklt : Packet.calculate_checksum ⟨seq, pt, data⟩ < 2 ^ 32 :=
    calculate_checksum_lt _ hdata
  obtain ⟨a0, a1, a2, a3, ha0, ha1, ha2, ha3, hsb, hsbe⟩ := u32be_split hseq
  obtain ⟨l0, l1, hl0, hl1, hlb, hlbe⟩ := u16be_split hlen
  obtain ⟨c0, c1, c2, c3, hc0, hc1, hc2, hc3, hcb, hcbe⟩ := u32be_split hchklt
  have hchk : Packet.calculate_checksum ⟨seq, pt, data⟩ =
      crc32 (a0 :: a1 :: a2 :: a3 :: pt.value :: l0 :: l1 :: data) := by
    unfold Packet.calculate_checksum
    rw [hsb, hlb]
    simp [List.cons_append]
  have hencform : enc = a0 :: a1 :: a2 :: a3 :: pt.value :: l0 :: l1 ::
      c0 :: c1 :: c2 :: c3 :: data := by
    unfold Packet.pack at henc
    split at henc
    · have h' := Option.some.inj henc
      rw [hsb, hlb, hcb] at h'
      simpa [List.cons_append] using h'.symm
    next h => exact absurd ⟨hseq, hlen⟩ h
  subst hencform
  interval_cases i

  · -- mutation of sequence-number byte 0
    have hab : a0 ≠ b' := fun h => hne (by rw [show (a0 :: a1 :: a2 :: a3 :: pt.value :: l0 :: l1 :: c0 :: c1 :: c2 :: c3 :: data).getD 0 0 = a0 from rfl, h])
    have hcrcne : be4 c0 c1 c2 c3 ≠
        Packet.calculate_checksum ⟨be4 b' a1 a2 a3, pt, data⟩ := by
      rw [hcbe, hchk]
      unfold Packet.calculate_checksum
      rw [u32be_be4 hb' ha1 ha2 ha3, hlb]
      simp only [List.cons_append, List.nil_append]
      exact crc32_ne_of_single_byte_ne [] (by simp) (fun x hx => by
          simp only [List.mem_cons] at hx
          rcases hx with rfl | rfl | rfl | rfl | rfl | rfl | hx
          · exact ha1
          · exact ha2
          · exact ha3
          · exact value_lt pt
          · exact hl0
          · exact hl1
          · exact hdata x hx) ha0 hb' hab
    rw [show (a0 :: a1 :: a2 :: a3 :: pt.value :: l0 :: l1 :: c0 :: c1 :: c2 :: c3 :: data).set 0 b' = b' :: a1 :: a2 :: a3 :: pt.value :: l0 :: l1 :: c0 :: c1 :: c2 :: c3 :: data from rfl,
      unpack_cons_some (ofValue_value pt), if_neg (by simp [hlbe]), if_pos hcrcne]
    exact ⟨⟨_, rfl⟩, by omega, by omega⟩
  · -- mutation of sequence-number byte 1
    have hab : a1 ≠ b' := fun h => hne (by rw [show (a0 :: a1 :: a2 :: a3 :: pt.value :: l0 :: l1 :: c0 :: c1 :: c2 :: c3 :: data).getD 1 0 = a1 from rfl, h])
    have hcrcne : be4 c0 c1 c2 c3 ≠
        Packet.calculate_checksum ⟨be4 a0 b' a2 a3, pt, data⟩ := by
      rw [hcbe, hchk]
      unfold Packet.calculate_checksum
      rw [u32be_be4 ha0 hb' ha2 ha3, hlb]
      simp only [List.cons_append, List.nil_append]
      exact crc32_ne_of_single_byte_ne [a0] (fun x hx => by
          simp only [List.mem_singleton] at hx
          subst hx
          exact ha0) (fun x hx => by
          simp only [List.mem_cons] at hx
          rcases hx with rfl | rfl | rfl | rfl | rfl | hx
          · exact ha2
          · exact ha3
          · exact value_lt pt
          · exact hl0
          · exact hl1
          · exact hdata x hx) ha1 hb' hab
    rw [show (a0 :: a1 :: a2 :: a3 :: pt.value :: l0 :: l1 :: c0 :: c1 :: c2 :: c3 :: data).set 1 b' = a0 :: b' :: a2 :: a3 :: pt.value :: l0 :: l1 :: c0 :: c1 :: c2 :: c3 :: data from rfl,
      unpack_cons_some (ofValue_value pt), if_neg (by simp [hlbe]), if_pos hcrcne]
    exact ⟨⟨_, rfl⟩, by omega, by omega⟩
  · -- mutation of sequence-number byte 2
    have hab : a2 ≠ b' := fun h => hne (by rw [show (a0 :: a1 :: a2 :: a3 :: pt.value :: l0 :: l1 :: c0 :: c1 :: c2 :: c3 :: data).getD 2 0 = a2 from rfl, h])
    have hcrcne : be4 c0 c1 c2 c3 ≠
        Packet.calculate_checksum ⟨be4 a0 a1 b' a3, pt, data⟩ := by
      rw [hcbe, hchk]
      unfold Packet.calculate_checksum
      rw [u32be_be4 ha0 ha1 hb' ha3, hlb]
      simp only [List.cons_append, List.nil_append]
      exact crc32_ne_of_single_byte_ne [a0, a1] (fun x hx => by
          simp only [List.mem_cons, List.not_mem_nil, or_false] at hx
          rcases hx with rfl | rfl
          · exact ha0
          · exact ha1) (fun x hx => by
          simp only [List.mem_cons] at hx
          rcases hx with rfl | rfl | rfl | rfl | hx
          · exact ha3
          · exact value_lt pt
          · exact hl0
          · exact hl1
          · exact hdata x hx) ha2 hb' hab
    rw [show (a0 :: a1 :: a2 :: a3 :: pt.value :: l0 :: l1 :: c0 :: c1 :: c2 :: c3 :: data).set 2 b' = a0 :: a1 :: b' :: a3 :: pt.value :: l0 :: l1 :: c0 :: c1 :: c2 :: c3 :: data from rfl,
      unpack_cons_some (ofValue_value pt), if_neg (by simp [hlbe]), if_pos hcrcne]
    exact ⟨⟨_, rfl⟩, by omega, by omega⟩
  · -- mutation of sequence-number byte 3
    have hab : a3 ≠ b' := fun h => hne (by rw [show (a0 :: a1 :: a2 :: a3 :: pt.value :: l0 :: l1 :: c0 :: c1 :: c2 :: c3 :: data).getD 3 0 = a3 from rfl, h])
    have hcrcne : be4 c0 c1 c2 c3 ≠
        Packet.calculate_checksum ⟨be4 a0 a1 a2 b', pt, data⟩ := by
      rw [hcbe, hchk]
      unfold Packet.calculate_checksum
      rw [u32be_be4 ha0 ha1 ha2 hb', hlb]
      simp only [List.cons_append, List.nil_append]
      exact crc32_ne_of_single_byte_ne [a0, a1, a2] (fun x hx => by
          simp only [List.mem_cons, List.not_mem_nil, or_false] at hx
          rcases hx with rfl | rfl | rfl
          · exact ha0
          · exact ha1
          · exact ha2) (fun x hx => by
          simp only [List.mem_cons] at hx
          rcases hx with rfl | rfl | rfl | hx
          · exact value_lt pt
          · exact hl0
          · exact hl1
          · exact hdata x hx) ha3 hb' hab
    rw [show (a0 :: a1 :: a2 :: a3 :: pt.value :: l0 :: l1 :: c0 :: c1 :: c2 :: c3 :: data).set 3 b' = a0 :: a1 :: a2 :: b' :: pt.value :: l0 :: l1 :: c0 :: c1 :: c2 :: c3 :: data from rfl,
      unpack_cons_some (ofValue_value pt), if_neg (by simp [hlbe]), if_pos hcrcne]
    exact ⟨⟨_, rfl⟩, by omega, by omega⟩
  · -- mutation of the type byte
    have hvne : pt.value ≠ b' := fun h => hne (by rw [show (a0 :: a1 :: a2 :: a3 :: pt.value :: l0 :: l1 :: c0 :: c1 :: c2 :: c3 :: data).getD 4 0 = pt.value from rfl, h])
    have hset4 : (a0 :: a1 :: a2 :: a3 :: pt.value :: l0 :: l1 :: c0 :: c1 :: c2 :: c3 :: data).set 4 b' =
        a0 :: a1 :: a2 :: a3 :: b' :: l0 :: l1 :: c0 :: c1 :: c2 :: c3 :: data := rfl
    cases hov : PacketType.ofValue b' with
    | none =>
        rw [hset4, unpack_cons_none hov]
        exact ⟨⟨_, rfl⟩, by omega, by omega⟩
    | some pt' =>
        have hvb : pt'.value = b' := ofValue_eq_some hov
        have hcrcne : be4 c0 c1 c2 c3 ≠
            Packet.calculate_checksum ⟨be4 a0 a1 a2 a3, pt', data⟩ := by
          rw [hcbe, hchk]
          unfold Packet.calculate_checksum
          rw [u32be_be4 ha0 ha1 ha2 ha3, hlb, hvb]
          simp only [List.cons_append, List.nil_append]
          exact crc32_ne_of_single_byte_ne [a0, a1, a2, a3]
            (fun x hx => by
          simp only [List.mem_cons, List.not_mem_nil, or_false] at hx
          rcases hx with rfl | rfl | rfl | rfl
          · exact ha0
          · exact ha1
          · exact ha2
          · exact ha3)
            (fun x hx => by
          simp only [List.mem_cons] at hx
          rcases hx with rfl | rfl | hx
          · exact hl0
          · exact hl1
          · exact hdata x hx) (value_lt pt) hb' hvne
        rw [hset4, unpack_cons_some hov, if_neg (by simp [hlbe]), if_pos hcrcne]
        exact ⟨⟨_, rfl⟩, by omega, by omega⟩
  · -- mutation of the high length byte
    have hl0b : l0 ≠ b' := fun h => hne (by rw [show (a0 :: a1 :: a2 :: a3 :: pt.value :: l0 :: l1 :: c0 :: c1 :: c2 :: c3 :: data).getD 5 0 = l0 from rfl, h])
    have hbad : be2 b' l1 ≠ data.length := by
      rw [← hlbe]
      exact fun h => hl0b ((be2_inj hb' hl1 hl0 hl1 h).1).symm
    rw [show (a0 :: a1 :: a2 :: a3 :: pt.value :: l0 :: l1 :: c0 :: c1 :: c2 :: c3 :: data).set 5 b' =
        a0 :: a1 :: a2 :: a3 :: pt.value :: b' :: l1 :: c0 :: c1 :: c2 :: c3 :: data from rfl,
      unpack_cons_some (ofValue_value pt), if_pos hbad]
    exact ⟨⟨_, rfl⟩, fun _ => rfl, by omega⟩
  · -- mutation of the low length byte
    have hl1b : l1 ≠ b' := fun h => hne (by rw [show (a0 :: a1 :: a2 :: a3 :: pt.value :: l0 :: l1 :: c0 :: c1 :: c2 :: c3 :: data).getD 6 0 = l1 from rfl, h])
    have hbad : be2 l0 b' ≠ data.length := by
      rw [← hlbe]
      exact fun h => hl1b ((be2_inj hl0 hb' hl0 hl1 h).2).symm
    rw [show (a0 :: a1 :: a2 :: a3 :: pt.value :: l0 :: l1 :: c0 :: c1 :: c2 :: c3 :: data).set 6 b' =
        a0 :: a1 :: a2 :: a3 :: pt.value :: l0 :: b' :: c0 :: c1 :: c2 :: c3 :: data from rfl,
      unpack_cons_some (ofValue_value pt), if_pos hbad]
    exact ⟨⟨_, rfl⟩, fun _ => rfl, by omega⟩
  · -- mutation of checksum byte 0
    have hcb' : c0 ≠ b' := fun h => hne (by rw [show (a0 :: a1 :: a2 :: a3 :: pt.value :: l0 :: l1 :: c0 :: c1 :: c2 :: c3 :: data).getD 7 0 = c0 from rfl, h])
    have hcond : be4 b' c1 c2 c3 ≠
        Packet.calculate_checksum ⟨be4 a0 a1 a2 a3, pt, data⟩ := by
      rw [hsbe, ← hcbe]
      exact fun h => hcb' ((be4_inj hb' hc1 hc2 hc3 hc0 hc1 hc2 hc3 h).1).symm
    rw [show (a0 :: a1 :: a2 :: a3 :: pt.value :: l0 :: l1 :: c0 :: c1 :: c2 :: c3 :: data).set 7 b' = a0 :: a1 :: a2 :: a3 :: pt.value :: l0 :: l1 :: b' :: c1 :: c2 :: c3 :: data from rfl,
      unpack_cons_some (ofValue_value pt), if_neg (by simp [hlbe]), if_pos hcond]
    exact ⟨⟨_, rfl⟩, by omega, fun _ => rfl⟩
  · -- mutation of checksum byte 1
    have hcb' : c1 ≠ b' := fun h => hne (by rw [show (a0 :: a1 :: a2 :: a3 :: pt.value :: l0 :: l1 :: c0 :: c1 :: c2 :: c3 :: data).getD 8 0 = c1 from rfl, h])
    have hcond : be4 c0 b' c2 c3 ≠
        Packet.calculate_checksum ⟨be4 a0 a1 a2 a3, pt, data⟩ := by
      rw [hsbe, ← hcbe]
      exact fun h => hcb' ((be4_inj hc0 hb' hc2 hc3 hc0 hc1 hc2 hc3 h).2.1).symm
    rw [show (a0 :: a1 :: a2 :: a3 :: pt.value :: l0 :: l1 :: c0 :: c1 :: c2 :: c3 :: data).set 8 b' = a0 :: a1 :: a2 :: a3 :: pt.value :: l0 :: l1 :: c0 :: b' :: c2 :: c3 :: data from rfl,
      unpack_cons_some (ofValue_value pt), if_neg (by simp [hlbe]), if_pos hcond]
    exact ⟨⟨_, rfl⟩, by omega, fun _ => rfl⟩
  · -- mutation of checksum byte 2
    have hcb' : c2 ≠ b' := fun h => hne (by rw [show (a0 :: a1 :: a2 :: a3 :: pt.value :: l0 :: l1 :: c0 :: c1 :: c2 :: c3 :: data).getD 9 0 = c2 from rfl, h])
    have hcond : be4 c0 c1 b' c3 ≠
        Packet.calculate_checksum ⟨be4 a0 a1 a2 a3, pt, data⟩ := by
      rw [hsbe, ← hcbe]
      exact fun h => hcb' ((be4_inj hc0 hc1 hb' hc3 hc0 hc1 hc2 hc3 h).2.2.1).symm
    rw [show (a0 :: a1 :: a2 :: a3 :: pt.value :: l0 :: l1 :: c0 :: c1 :: c2 :: c3 :: data).set 9 b' = a0 :: a1 :: a2 :: a3 :: pt.value :: l0 :: l1 :: c0 :: c1 :: b' :: c3 :: data from rfl,
      unpack_cons_some (ofValue_value pt), if_neg (by simp [hlbe]), if_pos hcond]
    exact ⟨⟨_, rfl⟩, by omega, fun _ => rfl⟩
  · -- mutation of checksum byte 3
    have hcb' : c3 ≠ b' := fun h => hne (by rw [show (a0 :: a1 :: a2 :: a3 :: pt.value :: l0 :: l1 :: c0 :: c1 :: c2 :: c3 :: data).getD 10 0 = c3 from rfl, h])
    have hcond : be4 c0 c1 c2 b' ≠
        Packet.calculate_checksum ⟨be4 a0 a1 a2 a3, pt, data⟩ := by
      rw [hsbe, ← hcbe]
      exact fun h => hcb' ((be4_inj hc0 hc1 hc2 hb' hc0 hc1 hc2 hc3 h).2.2.2).symm
    rw [show (a0 :: a1 :: a2 :: a3 :: pt.value :: l0 :: l1 :: c0 :: c1 :: c2 :: c3 :: data).set 10 b' = a0 :: a1 :: a2 :: a3 :: pt.value :: l0 :: l1 :: c0 :: c1 :: c2 :: b' :: data from rfl,
      unpack_cons_some (ofValue_value pt), if_neg (by simp [hlbe]), if_pos hcond]
    exact ⟨⟨_, rfl⟩, by omega, fun _ => rfl⟩

set_option maxRecDepth 20000 in
/-- Witness for the C2 theorem: byte 3 of the encoding of a concrete packet
is flipped from 1 to 5 and `Packet.unpack` rejects the result. -/
theorem unpack_rejects_header_byte_mutation_witness :
    (∃ e, Packet.unpack (List.set [0, 0, 0, 1, 0, 0, 0, 37, 208, 184, 27] 3 5) =
      .error e) ∧
    ((3 = 5 ∨ 3 = 6) →
      Packet.unpack (List.set [0, 0, 0, 1, 0, 0, 0, 37, 208, 184, 27] 3 5) =
        .error .dataLengthMismatch) ∧
    (7 ≤ 3 →
      Packet.unpack (List.set [0, 0, 0, 1, 0, 0, 0, 37, 208, 184, 27] 3 5) =
        .error .checksumMismatch) :=
  unpack_rejects_header_byte_mutation 1 .DATA [] (by norm_num) (by norm_num)
    (by simp) [0, 0, 0, 1, 0, 0, 0, 37, 208, 184, 27] (by decide) 3 (by norm_num)
    5 (by norm_num) (by decide)

/-- C3 (enum part): the `PacketType` enum of `protocol.py` has no `CHAT`
member — its member names are exactly `DATA`, `ACK`, `NACK`, `ERROR`. -/
def PacketType.memberNames : List String :=
  ["DATA", "ACK", "NACK", "ERROR"]

/-! ## `battleship.py`: `ClientSession`

`ClientSession.send` selects the outgoing sequence number (the per-session
counter advanced under `self.lock`, or `self.client_seq` when
`use_client_seq=True`) and then constructs
`protocol.Packet(sequence_number=seq, ptype=ptype, data=...)`
(battleship.py line 45).  `Packet.__init__`'s parameters are `seq_num`,
`ptype`, `data` (protocol.py line 25), so the keyword `sequence_number` is
rejected and the construction raises `TypeError`; only `OSError` is
caught, so every call to `send` raises after its counter update and no
packet is transmitted.  `ClientSession.recv` reads
`packet.sequence_number`, an attribute no `Packet` has (the stored
attributes are `seq_num`, `ptype`, `data`, `checksum`), and its
`except Exception` turns the `AttributeError` into a `None` return, so
`client_seq` is never updated.  Keyword binding and attribute access are
modelled over the name lists read off the source. -/

/-- The parameter names of `Packet.__init__` (protocol.py line 25). -/
def Packet.initParams : List String := ["seq_num", "ptype", "data"]

/-- The attribute names `Packet.__init__` stores on a packet object
(protocol.py lines 26-29). -/
def Packet.attrNames : List String := ["seq_num", "ptype", "data", "checksum"]

/-- The keyword-argument names `ClientSession.send` passes to `Packet(...)`
(battleship.py line 45). -/
def sendCallKeywords : List String := ["sequence_number", "ptype", "data"]

/-- Python keyword binding: a call raises `TypeError` unless every keyword
names a parameter of the callee. -/
def kwargsAccepted (params kwargs : List String) : Bool :=
  kwargs.all fun k => params.contains k

structure ClientSession where
  client_seq : Nat
  server_seq : Nat
deriving DecidableEq

/-- `ClientSession.__init__`: both counters start at 0. -/
def ClientSession.init : ClientSession := ⟨0, 0⟩

/-- `ClientSession.get_next_server_seq`: increment the counter and return
the new value. -/
def ClientSession.get_next_server_seq (s : ClientSession) :
    Nat × ClientSession :=
  (s.server_seq + 1, { s with server_seq := s.server_seq + 1 })

/-- `ClientSession.send` (battleship.py lines 39-49): select the sequence
number (`self.client_seq` or the advanced counter), then construct the
packet with keyword `sequence_number`.  The first component is `some seq`
when the construction is accepted (a packet carrying `seq` would be
transmitted) and `none` for the escaping `TypeError`; the returned session
carries the counter update, which has already happened when the
construction raises. -/
def ClientSession.send (s : ClientSession) (use_client_seq : Bool) :
    Option Nat × ClientSession :=
  let (seq, s') :=
    if use_client_seq then (s.client_seq, s) else s.get_next_server_seq
  if kwargsAccepted Packet.initParams sendCallKeywords then (some seq, s')
  else (none, s')

/-- `ClientSession.recv` (battleship.py lines 51-58): decode a packet with
sequence number `packetSeq` and payload `payload`, assign
`self.client_seq = packet.sequence_number`, and return the decoded
payload.  The attribute read raises `AttributeError` when no packet
attribute is named `sequence_number`; the `except Exception` then returns
`none` and the assignment never completes. -/
def ClientSession.recv (s : ClientSession) (packetSeq : Nat)
    (payload : String) : Option String × ClientSession :=
  if Packet.attrNames.contains "sequence_number" then
    (some payload, { s with client_seq := packetSeq })
  else (none, s)

/-! ## `battleship.py`: the `Board` -/

def BOARD_SIZE : Nat := 10

/-- One entry of `Board.placed_ships`: `{'name': ..., 'positions': set(...)}`. -/
structure Ship where
  name : String
  positions : Finset (Nat × Nat)
deriving DecidableEq

/-- The `Board` of `battleship.py`: hidden grid (`'.'`, `'S'`, `'X'`, `'o'`),
display grid (what an observer sees), and the placed-ships list. -/
structure Board where
  size : Nat
  hidden_grid : List (List Char)
  display_grid : List (List Char)
  placed_ships : List Ship
deriving DecidableEq

/-- A `size × size` grid of `'.'`. -/
def freshGrid (size : Nat) : List (List Char) :=
  List.replicate size (List.replicate size '.')

/-- `Board.__init__`. -/
def Board.init (size : Nat) : Board :=
  ⟨size, freshGrid size, freshGrid size, []⟩

/-- `Board.reset`. -/
def Board.reset (b : Board) : Board :=
  ⟨b.size, freshGrid b.size, freshGrid b.size, []⟩

/-- `grid[r][c]`; `'?'` stands for the out-of-range read Python would raise
`IndexError` on (all in-repo callers stay in range). -/
def getCell (g : List (List Char)) (r c : Nat) : Char :=
  (g.getD r []).getD c '?'

/-- `grid[r][c] = ch`. -/
def setCell (g : List (List Char)) (r c : Nat) (ch : Char) : List (List Char) :=
  g.set r ((g.getD r []).set c ch)

/-- `Board.can_place_ship` (battleship.py lines 165-190). -/
def Board.can_place_ship (b : Board) (row col ship_size orientation : Nat) :
    Bool :=
  if orientation = 0 then
    decide (col + ship_size ≤ b.size) &&
      (List.range ship_size).all fun k => getCell b.hidden_grid row (col + k) == '.'
  else
    decide (row + ship_size ≤ b.size) &&
      (List.range ship_size).all fun k => getCell b.hidden_grid (row + k) col == '.'

/-- The run of cells a ship occupies from its anchor. -/
def shipCells (row col ship_size orientation : Nat) : List (Nat × Nat) :=
  if orientation = 0 then (List.range ship_size).map fun k => (row, col + k)
  else (List.range ship_size).map fun k => (row + k, col)

/-- Mark a list of cells `'S'` on a grid. -/
def placeRun (g : List (List Char)) (cells : List (Nat × Nat)) :
    List (List Char) :=
  cells.foldl (fun g rc => setCell g rc.1 rc.2 'S') g

/-- `Board.do_place_ship` (battleship.py lines 192-205): mark the run `'S'`
on the hidden grid and return the occupied positions. -/
def Board.do_place_ship (b : Board) (row col ship_size orientation : Nat) :
    Finset (Nat × Nat) × Board :=
  let cells := shipCells row col ship_size orientation
  (cells.toFinset, { b with hidden_grid := placeRun b.hidden_grid cells })

/-- `Board._mark_hit_and_check_sunk` on the ships list: find the first ship
containing the position, remove it from the ship's set, report the name if
the set became empty, and stop scanning (`break`). -/
def markHit : List Ship → Nat × Nat → Option String × List Ship
  | [], _ => (none, [])
  | ship :: rest, pos =>
    if pos ∈ ship.positions then
      let positions' := ship.positions.erase pos
      (if positions'.card = 0 then some ship.name else none,
        { ship with positions := positions' } :: rest)
    else
      let (r, rest') := markHit rest pos
      (r, ship :: rest')

/-- `Board._mark_hit_and_check_sunk` (battleship.py lines 240-262). -/
def Board.mark_hit_and_check_sunk (b : Board) (row col : Nat) :
    Option String × Board :=
  let (r, ships') := markHit b.placed_ships (row, col)
  (r, { b with placed_ships := ships' })

/-- `Board.fire_at` (battleship.py lines 207-238). -/
def Board.fire_at (b : Board) (row col : Nat) :
    (String × Option String) × Board :=
  let cell := getCell b.hidden_grid row col
  if cell = 'S' then
    let hg := setCell b.hidden_grid row col 'X'
    let dg := setCell b.display_grid row col 'X'
    let b1 := { b with hidden_grid := hg, display_grid := dg }
    let (sunk, b2) := b1.mark_hit_and_check_sunk row col
    (("hit", sunk), b2)
  else if cell = '.' then
    let hg := setCell b.hidden_grid row col 'o'
    let dg := setCell b.display_grid row col 'o'
    (("miss", none), { b with hidden_grid := hg, display_grid := dg })
  else if cell = 'X' ∨ cell = 'o' then
    (("already_shot", none), b)
  else
    (("already_shot", none), b)

/-- `Board.all_ships_sunk` (battleship.py lines 264-271). -/
def Board.all_ships_sunk (b : Board) : Bool :=
  b.placed_ships.all fun ship => ship.positions.card == 0

/-- Fire a list of shots in order, collecting the results. -/
def fireSeq (b : Board) : List (Nat × Nat) → List (String × Option String) × Board
  | [] => ([], b)
  | p :: ps =>
    let (res, b') := b.fire_at p.1 p.2
    let (rs, bf) := fireSeq b' ps
    (res :: rs, bf)

/-- The mutating `Board` operations the game drives: `reset`, the placement
flow of `place_ships_randomly`/`place_ships_manually` (`can_place_ship`
then `do_place_ship` then `placed_ships.append`), and `fire_at`. -/
inductive BoardOp where
  | reset
  | place (row col ship_size orientation : Nat) (name : String)
  | fire (row col : Nat)

/-- Apply one `BoardOp` as the game code does. -/
def applyOp (b : Board) : BoardOp → Board
  | .reset => b.reset
  | .place row col s o name =>
    if b.can_place_ship row col s o then
      let (occ, b') := b.do_place_ship row col s o
      { b' with placed_ships := b'.placed_ships ++ [⟨name, occ⟩] }
    else b
  | .fire row col => (b.fire_at row col).2

def applyOps (b : Board) (ops : List BoardOp) : Board :=
  ops.foldl applyOp b

/-- The redacted-view invariant: every display cell is `'.'`, `'X'` or `'o'`
(in particular never the ship marker `'S'`). -/
def displayOk (b : Board) : Bool :=
  b.display_grid.all fun row => row.all fun ch => ch == '.' || ch == 'X' || ch == 'o'

/-! ## List and grid helper lemmas -/

theorem getD_set_self {α : Type} (l : List α) (n : Nat) (a d : α)
    (h : n < l.length) : (l.set n a).getD n d = a := by
  simp [List.getD, List.getElem?_set_self', h]

theorem getD_set_ne {α : Type} (l : List α) (m n : Nat) (a d : α)
    (h : m ≠ n) : (l.set n a).getD m d = l.getD m d := by
  simp [List.getD, List.getElem?_set_ne (Ne.symm h)]

theorem getCell_ne_default {g : List (List Char)} {r c : Nat}
    (h : getCell g r c ≠ '?') :
    r < g.length ∧ c < (g.getD r []).length := by
  unfold getCell at h
  by_cases hr : r < g.length
  · refine ⟨hr, ?_⟩
    by_contra hc
    rw [List.getD_eq_default _ _ (le_of_not_lt hc)] at h
    exact h rfl
  · exfalso
    rw [List.getD_eq_default _ _ (le_of_not_lt hr)] at h
    exact h rfl

theorem getCell_setCell_self {g : List (List Char)} {r c : Nat} (ch : Char)
    (hr : r < g.length) (hc : c < (g.getD r []).length) :
    getCell (setCell g r c ch) r c = ch := by
  unfold getCell setCell
  rw [getD_set_self _ _ _ _ hr]
  exact getD_set_self _ _ _ _ hc

theorem getCell_setCell_ne {g : List (List Char)} {r c r' c' : Nat} (ch : Char)
    (h : (r', c') ≠ (r, c)) :
    getCell (setCell g r c ch) r' c' = getCell g r' c' := by
  unfold getCell setCell
  by_cases hr : r' = r
  · subst hr
    have hc : c' ≠ c := fun hcc => h (by rw [hcc])
    by_cases hlen : r' < g.length
    · rw [getD_set_self _ _ _ _ hlen, getD_set_ne _ _ _ _ _ hc]
    · rw [List.set_eq_of_length_le (le_of_not_lt hlen)]
  · rw [getD_set_ne _ _ _ _ _ hr]

theorem getD_mem_of_lt {α : Type} {l : List α} {n : Nat} (d : α)
    (h : n < l.length) : l.getD n d ∈ l := by
  rw [List.getD_eq_getElem l d h]
  exact List.getElem_mem h

theorem setCell_pres {P : Char → Prop} {g : List (List Char)} {r c : Nat}
    {ch : Char} (hg : ∀ row ∈ g, ∀ x ∈ row, P x) (hch : P ch) :
    ∀ row ∈ setCell g r c ch, ∀ x ∈ row, P x := by
  intro row hrow x hx
  rcases List.mem_or_eq_of_mem_set hrow with h | h
  · exact hg row h x hx
  · subst h
    rcases List.mem_or_eq_of_mem_set hx with h2 | h2
    · rcases Nat.lt_or_ge r g.length with hr | hr
      · exact hg _ (getD_mem_of_lt _ hr) x h2
      · rw [List.getD_eq_default _ _ hr] at h2
        exact absurd h2 (List.not_mem_nil x)
    · subst h2
      exact hch

/-! ## C3: the enum has no `CHAT` member (server.py references one) -/

/-- C3: the `PacketType` enum of the codec has no `CHAT` member: its member
names are exactly `DATA`, `ACK`, `NACK`, `ERROR`, no member has value 4,
and `PacketType(4)` raises — so `server.py`'s `protocol.PacketType.CHAT`
(in `broadcast_message` and `message_handler`) names a nonexistent member
and the claimed CHAT broadcast can never run. -/
theorem packetType_lacks_CHAT :
    "CHAT" ∉ PacketType.memberNames ∧ (∀ t : PacketType, t.value ≠ 4) ∧
      PacketType.ofValue 4 = none := by
  refine ⟨by decide, ?_, by decide⟩
  intro t
  cases t <;> decide

/-! ## C9: sequence-number discipline of `ClientSession` -/

/-- C9 (code evaluation): the claimed sequence discipline is broken by two
naming slips.  `Packet.__init__` accepts no `sequence_number` keyword, so
every `ClientSession.send` raises `TypeError` and transmits nothing (on
the `use_client_seq=False` path the counter has already been advanced
when the exception fires); no packet attribute is named
`sequence_number`, so `ClientSession.recv` swallows an `AttributeError`,
returns `None`, and never updates `client_seq` — no sequence number is
ever observed from the peer, and an echo send could only ever use the
initial value 0. -/
theorem session_seq_naming_bugs :
    kwargsAccepted Packet.initParams sendCallKeywords = false ∧
    Packet.attrNames.contains "sequence_number" = false ∧
    (∀ (s : ClientSession) (u : Bool), (s.send u).1 = none) ∧
    (∀ (s : ClientSession) (q : Nat) (p : String), s.recv q p = (none, s)) ∧
    (∀ s : ClientSession, (s.send false).2.server_seq = s.server_seq + 1) ∧
    (∀ s : ClientSession, (s.send true).2 = s) := by
  refine ⟨rfl, rfl, ?_, ?_, fun s => rfl, fun s => rfl⟩
  · intro s u
    cases u <;> rfl
  · intro s q p
    rfl

/-! ## C10: the display grid never shows a ship -/

theorem displayOk_iff {b : Board} : displayOk b = true ↔
    ∀ row ∈ b.display_grid, ∀ ch ∈ row, ch = '.' ∨ ch = 'X' ∨ ch = 'o' := by
  simp [displayOk, List.all_eq_true, or_assoc]

theorem freshGrid_displayOk (size : Nat) :
    ∀ row ∈ freshGrid size, ∀ ch ∈ row, ch = '.' ∨ ch = 'X' ∨ ch = 'o' := by
  intro row hrow ch hch
  rw [List.eq_of_mem_replicate hrow] at hch
  exact Or.inl (List.eq_of_mem_replicate hch)

theorem do_place_ship_display (b : Board) (row col s o : Nat) :
    (b.do_place_ship row col s o).2.display_grid = b.display_grid := rfl

theorem mark_hit_eq (b : Board) (row col : Nat) :
    b.mark_hit_and_check_sunk row col =
      ((markHit b.placed_ships (row, col)).1,
        { b with placed_ships := (markHit b.placed_ships (row, col)).2 }) := by
  unfold Board.mark_hit_and_check_sunk
  rcases hmk : markHit b.placed_ships (row, col) with ⟨r, ships'⟩
  simp [hmk]

theorem fire_at_S {b : Board} {row col : Nat}
    (h : getCell b.hidden_grid row col = 'S') :
    b.fire_at row col =
      (("hit", (markHit b.placed_ships (row, col)).1),
        { b with hidden_grid := setCell b.hidden_grid row col 'X',
                 display_grid := setCell b.display_grid row col 'X',
                 placed_ships := (markHit b.placed_ships (row, col)).2 }) := by
  simp only [Board.fire_at, h, if_pos, mark_hit_eq]

theorem fire_at_miss {b : Board} {row col : Nat}
    (h : getCell b.hidden_grid row col = '.') :
    b.fire_at row col =
      (("miss", none),
        { b with hidden_grid := setCell b.hidden_grid row col 'o',
                 display_grid := setCell b.display_grid row col 'o' }) := by
  simp only [Board.fire_at, h]
  simp

theorem fire_at_already {b : Board} {row col : Nat}
    (h : getCell b.hidden_grid row col ≠ 'S')
    (h2 : getCell b.hidden_grid row col ≠ '.') :
    b.fire_at row col = (("already_shot", none), b) := by
  simp only [Board.fire_at]
  rw [if_neg h, if_neg h2]
  split <;> rfl

theorem fire_at_display (b : Board) (row col : Nat) :
    (b.fire_at row col).2.display_grid = b.display_grid ∨
    ∃ ch, (ch = 'X' ∨ ch = 'o') ∧
      (b.fire_at row col).2.display_grid = setCell b.display_grid row col ch := by
  by_cases hS : getCell b.hidden_grid row col = 'S'
  · right
    exact ⟨'X', Or.inl rfl, by rw [fire_at_S hS]⟩
  · by_cases hD : getCell b.hidden_grid row col = '.'
    · right
      exact ⟨'o', Or.inr rfl, by rw [fire_at_miss hD]⟩
    · left
      rw [fire_at_already hS hD]

theorem applyOp_displayOk {b : Board} (op : BoardOp)
    (h : displayOk b = true) : displayOk (applyOp b op) = true := by
  cases op with
  | reset =>
    simp only [applyOp]
    rw [displayOk_iff]
    exact freshGrid_displayOk b.size
  | place row col s o name =>
    simp only [applyOp]
    split
    · rw [displayOk_iff]
      rw [displayOk_iff] at h
      exact h
    · exact h
  | fire row col =>
    simp only [applyOp]
    rw [displayOk_iff]
    rcases fire_at_display b row col with hd | ⟨ch, hch, hd⟩
    · rw [hd]
      exact (displayOk_iff).1 h
    · rw [hd]
      refine setCell_pres ((displayOk_iff).1 h) ?_
      rcases hch with h' | h' <;> subst h'
      · exact Or.inr (Or.inl rfl)
      · exact Or.inr (Or.inr rfl)

/-- C10: starting from a fresh `Board`, after any sequence of reset,
ship-placement and `fire_at` operations every cell of the display grid
(the observer view) is `'.'`, `'X'` or `'o'` — the ship marker `'S'` never
appears there. -/
theorem display_grid_never_reveals_ships (size : Nat) (ops : List BoardOp) :
    displayOk (applyOps (Board.init size) ops) = true := by
  suffices h : ∀ b : Board, displayOk b = true →
      displayOk (applyOps b ops) = true by
    refine h _ ?_
    rw [displayOk_iff]
    exact freshGrid_displayOk size
  induction ops with
  | nil => intro b hb; exact hb
  | cons op ops ih =>
    intro b hb
    exact ih _ (applyOp_displayOk op hb)

/-- Well-formedness of a board's ship bookkeeping, as established by the
placement flow: every remaining ship cell is marked `'S'` on the hidden
grid, the ships occupy pairwise disjoint cells, and ship names are
pairwise distinct. -/
def Board.shipsWF (b : Board) : Prop :=
  (∀ s ∈ b.placed_ships, ∀ p ∈ s.positions,
    getCell b.hidden_grid p.1 p.2 = 'S') ∧
  b.placed_ships.Pairwise (fun s t => Disjoint s.positions t.positions) ∧
  b.placed_ships.Pairwise (fun s t => s.name ≠ t.name)

theorem markHit_cons_mem {ship : Ship} {pos : Nat × Nat} (rest : List Ship)
    (h : pos ∈ ship.positions) :
    markHit (ship :: rest) pos =
      ((if (ship.positions.erase pos).card = 0 then some ship.name else none),
        { ship with positions := ship.positions.erase pos } :: rest) := by
  simp [markHit, h]

theorem markHit_cons_not_mem {ship : Ship} {pos : Nat × Nat} (rest : List Ship)
    (h : pos ∉ ship.positions) :
    markHit (ship :: rest) pos =
      ((markHit rest pos).1, ship :: (markHit rest pos).2) := by
  rcases hmk : markHit rest pos with ⟨r, rest'⟩
  simp [markHit, h, hmk]

theorem markHit_sinks_singleton (ships : List Ship) :
    ∀ (ship : Ship) (pos : Nat × Nat),
      ships.Pairwise (fun s t => Disjoint s.positions t.positions) →
      ship ∈ ships → ship.positions = {pos} →
      (markHit ships pos).1 = some ship.name := by
  induction ships with
  | nil =>
    intro ship pos _ hmem _
    exact absurd hmem (List.not_mem_nil ship)
  | cons hd rest ih =>
    intro ship pos hdisj hmem hsingle
    rcases List.mem_cons.1 hmem with heq | hmem'
    · subst heq
      have hpos : pos ∈ ship.positions := by
        rw [hsingle]; exact Finset.mem_singleton_self pos
      rw [markHit_cons_mem rest hpos, hsingle]
      simp
    · have hnot : pos ∉ hd.positions := by
        intro hin
        have hd2 := (List.pairwise_cons.1 hdisj).1 ship hmem'
        exact (Finset.disjoint_left.1 hd2 hin)
          (by rw [hsingle]; exact Finset.mem_singleton_self pos)
      rw [markHit_cons_not_mem rest hnot]
      exact ih ship pos (List.pairwise_cons.1 hdisj).2 hmem' hsingle

/-- A board in which every ship carrying a given name has no remaining
cells. -/
def noLiveShipNamed (n : String) (ships : List Ship) : Prop :=
  ∀ s ∈ ships, s.name = n → s.positions = ∅

theorem markHit_no_live_after_sink (ships : List Ship) :
    ∀ (ship : Ship) (pos : Nat × Nat),
      ships.Pairwise (fun s t => Disjoint s.positions t.positions) →
      ships.Pairwise (fun s t => s.name ≠ t.name) →
      ship ∈ ships → ship.positions = {pos} →
      noLiveShipNamed ship.name (markHit ships pos).2 := by
  induction ships with
  | nil =>
    intro ship pos _ _ hmem _
    exact absurd hmem (List.not_mem_nil ship)
  | cons hd rest ih =>
    intro ship pos hdisj hnames hmem hsingle
    rcases List.mem_cons.1 hmem with heq | hmem'
    · subst heq
      have hpos : pos ∈ ship.positions := by
        rw [hsingle]; exact Finset.mem_singleton_self pos
      rw [markHit_cons_mem rest hpos]
      intro s hs hname
      rcases List.mem_cons.1 hs with heq2 | hs'
      · rw [heq2, hsingle]
        simp
      · exact absurd hname.symm ((List.pairwise_cons.1 hnames).1 s hs')
    · have hnot : pos ∉ hd.positions := by
        intro hin
        have hd2 := (List.pairwise_cons.1 hdisj).1 ship hmem'
        exact (Finset.disjoint_left.1 hd2 hin)
          (by rw [hsingle]; exact Finset.mem_singleton_self pos)
      rw [markHit_cons_not_mem rest hnot]
      intro s hs hname
      rcases List.mem_cons.1 hs with heq2 | hs'
      · subst heq2
        exact absurd hname ((List.pairwise_cons.1 hnames).1 ship hmem')
      · exact ih ship pos (List.pairwise_cons.1 hdisj).2
          (List.pairwise_cons.1 hnames).2 hmem' hsingle s hs' hname

theorem markHit_no_live_pres (ships : List Ship) (n : String) (pos : Nat × Nat)
    (hI : noLiveShipNamed n ships) :
    noLiveShipNamed n (markHit ships pos).2 := by
  induction ships with
  | nil => exact hI
  | cons hd rest ih =>
    have hItail : noLiveShipNamed n rest :=
      fun s hs hn => hI s (List.mem_cons_of_mem _ hs) hn
    by_cases hpos : pos ∈ hd.positions
    · rw [markHit_cons_mem rest hpos]
      intro s hs hname
      rcases List.mem_cons.1 hs with heq2 | hs'
      · subst heq2
        have : hd.positions = ∅ := hI hd (List.mem_cons_self _ _) hname
        rw [this] at hpos
        exact absurd hpos (Finset.not_mem_empty pos)
      · exact hItail s hs' hname
    · rw [markHit_cons_not_mem rest hpos]
      intro s hs hname
      rcases List.mem_cons.1 hs with heq2 | hs'
      · subst heq2
        exact hI s (List.mem_cons_self _ _) hname
      · exact ih hItail s hs' hname

theorem markHit_no_live_result (ships : List Ship) (n : String) (pos : Nat × Nat)
    (hI : noLiveShipNamed n ships) :
    (markHit ships pos).1 ≠ some n := by
  induction ships with
  | nil => simp [markHit]
  | cons hd rest ih =>
    have hItail : noLiveShipNamed n rest :=
      fun s hs hn => hI s (List.mem_cons_of_mem _ hs) hn
    by_cases hpos : pos ∈ hd.positions
    · rw [markHit_cons_mem rest hpos]
      intro hres
      simp only at hres
      split at hres
      · have hname : hd.name = n := Option.some.inj hres
        have : hd.positions = ∅ := hI hd (List.mem_cons_self _ _) hname
        rw [this] at hpos
        exact absurd hpos (Finset.not_mem_empty pos)
      · exact Option.noConfusion hres
    · rw [markHit_cons_not_mem rest hpos]
      exact ih hItail

theorem fire_at_no_live (b : Board) (n : String) (r c : Nat)
    (hI : noLiveShipNamed n b.placed_ships) :
    (b.fire_at r c).1.2 ≠ some n ∧
      noLiveShipNamed n ((b.fire_at r c).2).placed_ships := by
  by_cases hS : getCell b.hidden_grid r c = 'S'
  · rw [fire_at_S hS]
    exact ⟨markHit_no_live_result _ _ _ hI, markHit_no_live_pres _ _ _ hI⟩
  · by_cases hD : getCell b.hidden_grid r c = '.'
    · rw [fire_at_miss hD]
      exact ⟨by simp, hI⟩
    · rw [fire_at_already hS hD]
      exact ⟨by simp, hI⟩

theorem fireSeq_no_live (shots : List (Nat × Nat)) :
    ∀ (b : Board) (n : String), noLiveShipNamed n b.placed_ships →
      ∀ res ∈ (fireSeq b shots).1, res.2 ≠ some n := by
  induction shots with
  | nil =>
    intro b n _ res hres
    exact absurd hres (List.not_mem_nil res)
  | cons p ps ih =>
    intro b n hI res hres
    have hstep := fire_at_no_live b n p.1 p.2 hI
    rcases hfire : b.fire_at p.1 p.2 with ⟨r1, b'⟩
    rw [hfire] at hstep
    have hseq : fireSeq b (p :: ps) =
        (r1 :: (fireSeq b' ps).1, (fireSeq b' ps).2) := by
      rcases hrest : fireSeq b' ps with ⟨rs, bf⟩
      simp [fireSeq, hfire, hrest]
    rw [hseq] at hres
    rcases List.mem_cons.1 hres with heq | hmem
    · subst heq
      exact hstep.1
    · exact ih b' n hstep.2 res hmem


theorem all_ships_sunk_iff (b : Board) :
    b.all_ships_sunk = true ↔ ∀ s ∈ b.placed_ships, s.positions = ∅ := by
  simp [Board.all_ships_sunk, List.all_eq_true, Finset.card_eq_zero]

/-- C8: on a well-formed board, the shot that removes a placed ship's last
remaining cell returns `("hit", some name)` for that ship, and no `fire_at`
call in any later sequence of shots reports that name again; and
`all_ships_sunk` is `true` iff every placed ship has zero remaining cells. -/
theorem sink_reported_once_and_allsunk :
    (∀ (b : Board) (ship : Ship) (r c : Nat),
      b.shipsWF → ship ∈ b.placed_ships → ship.positions = {(r, c)} →
      (b.fire_at r c).1 = ("hit", some ship.name) ∧
      ∀ shots : List (Nat × Nat),
        ∀ res ∈ (fireSeq ((b.fire_at r c).2) shots).1, res.2 ≠ some ship.name) ∧
    ∀ b : Board, b.all_ships_sunk = true ↔ ∀ s ∈ b.placed_ships, s.positions = ∅ := by
  constructor
  · intro b ship r c hWF hmem hsingle
    have hcell : getCell b.hidden_grid r c = 'S' :=
      hWF.1 ship hmem (r, c) (by rw [hsingle]; exact Finset.mem_singleton_self _)
    constructor
    · rw [fire_at_S hcell]
      show ("hit", (markHit b.placed_ships (r, c)).1) = ("hit", some ship.name)
      rw [markHit_sinks_singleton b.placed_ships ship (r, c) hWF.2.1 hmem hsingle]
    · intro shots res hres
      refine fireSeq_no_live shots _ ship.name ?_ res hres
      rw [fire_at_S hcell]
      exact markHit_no_live_after_sink b.placed_ships ship (r, c)
        hWF.2.1 hWF.2.2 hmem hsingle
  · exact all_ships_sunk_iff

/-- A one-cell board carrying one single-cell ship, for the C8 witness. -/
def wboard : Board :=
  ⟨1, [['S']], [['.']], [⟨"Destroyer", {(0, 0)}⟩]⟩

/-- Witness for the C8 theorem on the one-cell board. -/
theorem sink_reported_once_and_allsunk_witness :
    (wboard.fire_at 0 0).1 = ("hit", some "Destroyer") ∧
    (("already_shot", (none : Option String)).2 ≠ some "Destroyer") ∧
    (wboard.all_ships_sunk = true ↔ ∀ s ∈ wboard.placed_ships, s.positions = ∅) :=
  have h := sink_reported_once_and_allsunk.1 wboard ⟨"Destroyer", {(0, 0)}⟩ 0 0
    (by refine ⟨?_, ?_, ?_⟩ <;> decide) (by decide) rfl
  ⟨h.1, h.2 [(0, 0)] ("already_shot", none) (by decide), sink_reported_once_and_allsunk.2 wboard⟩

/-! ## C7 (board part): firing twice at the same cell -/

theorem fireSeq_cons (b : Board) (p : Nat × Nat) (ps : List (Nat × Nat)) :
    fireSeq b (p :: ps) =
      ((b.fire_at p.1 p.2).1 :: (fireSeq (b.fire_at p.1 p.2).2 ps).1,
        (fireSeq (b.fire_at p.1 p.2).2 ps).2) := by
  rcases hfire : b.fire_at p.1 p.2 with ⟨r1, b'⟩
  rcases hrest : fireSeq b' ps with ⟨rs, bf⟩
  simp [fireSeq, hfire, hrest]

/-- After any shot, the hidden cell at a previously-revealed position stays
revealed (`'X'` or `'o'`). -/
theorem fire_at_pres_revealed {b : Board} {r c : Nat}
    (h : getCell b.hidden_grid r c = 'X' ∨ getCell b.hidden_grid r c = 'o')
    (p : Nat × Nat) :
    getCell ((b.fire_at p.1 p.2).2).hidden_grid r c = 'X' ∨
      getCell ((b.fire_at p.1 p.2).2).hidden_grid r c = 'o' := by
  by_cases hpq : (r, c) = (p.1, p.2)
  · have hcell : getCell b.hidden_grid p.1 p.2 = 'X' ∨
        getCell b.hidden_grid p.1 p.2 = 'o' := by
      rw [show p.1 = r from (Prod.mk.injEq _ _ _ _ ▸ hpq).1.symm,
        show p.2 = c from (Prod.mk.injEq _ _ _ _ ▸ hpq).2.symm]
      exact h
    have hS : getCell b.hidden_grid p.1 p.2 ≠ 'S' := by
      rcases hcell with h' | h' <;> rw [h'] <;> decide
    have hD : getCell b.hidden_grid p.1 p.2 ≠ '.' := by
      rcases hcell with h' | h' <;> rw [h'] <;> decide
    rw [fire_at_already hS hD]
    exact h
  · by_cases hS : getCell b.hidden_grid p.1 p.2 = 'S'
    · rw [fire_at_S hS]
      show getCell (setCell b.hidden_grid p.1 p.2 'X') r c = 'X' ∨
        getCell (setCell b.hidden_grid p.1 p.2 'X') r c = 'o'
      rw [getCell_setCell_ne _ hpq]
      exact h
    · by_cases hD : getCell b.hidden_grid p.1 p.2 = '.'
      · rw [fire_at_miss hD]
        show getCell (setCell b.hidden_grid p.1 p.2 'o') r c = 'X' ∨
          getCell (setCell b.hidden_grid p.1 p.2 'o') r c = 'o'
        rw [getCell_setCell_ne _ hpq]
        exact h
      · rw [fire_at_already hS hD]
        exact h

theorem fireSeq_pres_revealed (ps : List (Nat × Nat)) :
    ∀ {b : Board} {r c : Nat},
      (getCell b.hidden_grid r c = 'X' ∨ getCell b.hidden_grid r c = 'o') →
      getCell ((fireSeq b ps).2).hidden_grid r c = 'X' ∨
        getCell ((fireSeq b ps).2).hidden_grid r c = 'o' := by
  induction ps with
  | nil => intro b r c h; exact h
  | cons p ps ih =>
    intro b r c h
    rw [fireSeq_cons]
    exact ih (fire_at_pres_revealed h p)

/-- A fresh (`'S'` or `'.'`) cell becomes revealed after the first shot. -/
theorem fire_at_reveals {b : Board} {r c : Nat}
    (h : getCell b.hidden_grid r c = 'S' ∨ getCell b.hidden_grid r c = '.') :
    getCell ((b.fire_at r c).2).hidden_grid r c = 'X' ∨
      getCell ((b.fire_at r c).2).hidden_grid r c = 'o' := by
  have hb : r < b.hidden_grid.length ∧ c < (b.hidden_grid.getD r []).length := by
    refine getCell_ne_default ?_
    rcases h with h' | h' <;> rw [h'] <;> decide
  rcases h with h' | h'
  · rw [fire_at_S h']
    left
    show getCell (setCell b.hidden_grid r c 'X') r c = 'X'
    exact getCell_setCell_self _ hb.1 hb.2
  · rw [fire_at_miss h']
    right
    show getCell (setCell b.hidden_grid r c 'o') r c = 'o'
    exact getCell_setCell_self _ hb.1 hb.2

/-! ## `battleship.py`: coordinate parsing and the turn handler

Python string primitives are modelled over the character data of the
strings (ASCII suffices for every string the game exchanges). -/

/-- Python whitespace for `str.split()`/`str.strip()`. -/
def isPySpace (c : Char) : Bool :=
  c = ' ' ∨ c = '\t' ∨ c = '\n' ∨ c = '\r' ∨ c = '\x0b' ∨ c = '\x0c'

/-- `str.lower()`. -/
def pyLower (s : String) : String :=
  String.mk (s.data.map Char.toLower)

/-- `str.upper()`. -/
def pyUpper (s : String) : String :=
  String.mk (s.data.map Char.toUpper)

/-- `str.strip()`. -/
def pyStrip (s : String) : String :=
  String.mk (((s.data.dropWhile isPySpace).reverse.dropWhile isPySpace).reverse)

/-- `a.startswith(b)`. -/
def pyStartsWith (s pre : String) : Bool :=
  pre.data.isPrefixOf s.data

/-- `str.split()` with no separator: split on whitespace runs, dropping
empty pieces. -/
def pySplitGo : List Char → List Char → List String
  | [], acc => if acc.isEmpty then [] else [String.mk acc.reverse]
  | ch :: rest, acc =>
    if isPySpace ch then
      if acc.isEmpty then pySplitGo rest []
      else String.mk acc.reverse :: pySplitGo rest []
    else pySplitGo rest (ch :: acc)

def pySplit (s : String) : List String :=
  pySplitGo s.data []

/-- `int(digits)` on a nonempty all-digit string. -/
def digitsToNat (cs : List Char) : Nat :=
  cs.foldl (fun a c => a * 10 + (c.toNat - 48)) 0

/-- `parse_coordinate` (battleship.py lines 300-319): strip and upper-case,
check the length is 2 or 3, require a letter then digits, and check the
zero-based coordinate against `BOARD_SIZE`; errors are the `ValueError`s
of the source. -/
def parse_coordinate (coord_str : String) : Except String (Nat × Nat) :=
  let cs := (pyUpper (pyStrip coord_str)).data
  if cs.length < 2 ∨ cs.length > 3 then
    .error "coordinate syntax error，eg：A1 or B10"
  else
    match cs with
    | row_letter :: col_digits =>
      if ¬ row_letter.isAlpha then
        .error "row must be the charactor（A-J）"
      else if ¬ col_digits.all Char.isDigit then
        .error "col must be the number（1-10）"
      else
        let row : Int := (row_letter.toNat : Int) - 65
        let col : Int := (digitsToNat col_digits : Int) - 1
        if row < 0 ∨ (BOARD_SIZE : Int) ≤ row ∨ col < 0 ∨ (BOARD_SIZE : Int) ≤ col then
          .error "input coordinate out of range（A1-J10）"
        else .ok (row.toNat, col.toNat)
    | [] => .error "coordinate syntax error，eg：A1 or B10"

/-- The event ending the per-turn wait in `handle_turn`: either the 30-unit
timeout fires first, or a line arrives from the acting player's inbound
queue (`read_input` stores the sentinel string `CONNECTION_ERROR` for a
lost connection). -/
inductive TurnEvent where
  | timeout
  | line (s : String)

/-- The messages `handle_turn` emits after the wait resolves, by audience:
sends to the acting player's session, sends to the opponent's session, and
`broadcast_to_spectators` messages (that helper appends a newline when
transmitting). -/
structure TurnMsgs where
  toPlayer : List String
  toOpponent : List String
  toSpectators : List String
deriving DecidableEq

def emptyMsgs : TurnMsgs := ⟨[], [], []⟩

/-- The outcome of one iteration of `handle_turn`'s loop: `nextTurn` is
`return True` (turn consumed), `matchEnd` is `return False`, `retry` is
`continue` (same turn again), `connLost` is the connection-lost path, and
`crash` is an uncaught exception escaping `handle_turn`. -/
inductive TurnStep where
  | nextTurn (board : Board) (msgs : TurnMsgs)
  | matchEnd (board : Board) (msgs : TurnMsgs)
  | retry (board : Board) (msgs : TurnMsgs)
  | connLost (board : Board) (msgs : TurnMsgs)
  | crash (board : Board) (msgs : TurnMsgs)
deriving DecidableEq

/-- `chr(ord('A') + r)`. -/
def rowLabel (r : Nat) : String :=
  String.mk [Char.ofNat (65 + r)]

/-- Python `f"{label:2}"`: left-justify to width 2. -/
def padTo2 (s : String) : String :=
  if s.length < 2 then s ++ " " else s

/-- The grid lines `handle_turn` broadcasts to spectators after a resolved
shot (battleship.py lines 486-494): one line per row of the opponent's
display grid. -/
def gridRows (b : Board) : List String :=
  (List.range b.size).map fun r =>
    padTo2 (rowLabel r) ++ " " ++
      String.intercalate " "
        ((List.range b.size).map fun c => String.mk [getCell b.display_grid r c])

/-- The full spectator grid broadcast: `"GRID"`, the rows, then `""`. -/
def spectatorGridMsgs (b : Board) : List String :=
  "GRID" :: gridRows b ++ [""]

/-- One iteration of `handle_turn` (battleship.py lines 388-496) from the
point the per-turn wait resolves, as a function of the event and the
opponent's board.  The board/prompt sends that precede the wait are not
part of the outcome.  On `timeout` the branch's first statement is an
unguarded `sess1.send(...)`, whose `Packet(sequence_number=...)`
construction raises `TypeError` (see `kwargsAccepted`), uncaught by the
`except OSError` — so the handler crashes before any notification or turn
pass (were the construction accepted, it would notify both players and
the spectators and return `True`).
On a line: the `CONNECTION_ERROR` sentinel aborts, `quit` ends the match,
a line without the `fire ` prefix is an error-and-retry, `guess.split()[1]`
raises `IndexError` when the line has no second token (`crash`), a bad
coordinate is an error-and-retry, and otherwise the shot is resolved on
the opponent's board with the result messages of the source, followed by
the spectator grid broadcast for every resolved (non-game-ending) shot.
The message lists record the arguments the handler passes to the session
sends and to `broadcast_to_spectators` (whose per-spectator sends are each
wrapped in their own bare `except`); the `already_shot` path performs no
player send at all, so it is the resolution path that genuinely reaches
`return True`. -/
def turnStep (player_name : String) (opponent_board : Board)
    (ev : TurnEvent) : TurnStep :=
  match ev with
  | .timeout =>
    if kwargsAccepted Packet.initParams sendCallKeywords then
      .nextTurn opponent_board
        ⟨["ERROR: out of time，skip the turn."],
         [player_name ++ " out of time，its your turn."],
         ["[SPECTATOR] " ++ player_name ++ " out of time，skip the turn"]⟩
    else
      .crash opponent_board emptyMsgs
  | .line guess =>
    if guess = "CONNECTION_ERROR" then
      .connLost opponent_board
        ⟨[], ["oppenent player quit the game, plz quit and trying to reconnect"], []⟩
    else if pyStartsWith (pyLower guess) "quit" then
      .matchEnd opponent_board
        ⟨["Game quit"], ["opponent player quit the game."], []⟩
    else if ¬ pyStartsWith (pyLower guess) "fire " then
      .retry opponent_board ⟨["ERROR: Use 'FIRE <coord>'"], [], []⟩
    else
      match (pySplit guess).get? 1 with
      | none => .crash opponent_board emptyMsgs
      | some coord_str =>
        match parse_coordinate coord_str with
        | .error _ => .retry opponent_board ⟨["ERROR: Invalid coordinate"], [], []⟩
        | .ok (row, col) =>
          match opponent_board.fire_at row col with
          | ((result, sunk_name), board') =>
            if result = "hit" then
              match sunk_name with
              | some name =>
                if board'.all_ships_sunk then
                  .matchEnd board'
                    ⟨["RESULT SINK " ++ name, "GAME_OVER You win! All ships sunk!"],
                     ["RESULT SINK " ++ name, "GAME_OVER You lose! All your ships are sunk!"],
                     ["[SPECTATOR] " ++ player_name ++ " sink " ++ name ++ "！",
                      "[SPECTATOR] GAME OVER! " ++ player_name ++ " wins!"]⟩
                else
                  .nextTurn board'
                    ⟨["RESULT SINK " ++ name], ["RESULT SINK " ++ name],
                     ("[SPECTATOR] " ++ player_name ++ " sink " ++ name ++ "！") ::
                       spectatorGridMsgs board'⟩
              | none =>
                if board'.all_ships_sunk then
                  .matchEnd board'
                    ⟨["RESULT HIT OPPONENT SHIP", "GAME_OVER You win! All ships sunk!"],
                     ["RESULT HIT YOURS SHIP", "GAME_OVER You lose! All your ships are sunk!"],
                     ["[SPECTATOR] " ++ player_name ++ " HIT！",
                      "[SPECTATOR] GAME OVER! " ++ player_name ++ " wins!"]⟩
                else
                  .nextTurn board'
                    ⟨["RESULT HIT OPPONENT SHIP"], ["RESULT HIT YOURS SHIP"],
                     ("[SPECTATOR] " ++ player_name ++ " HIT！") ::
                       spectatorGridMsgs board'⟩
            else if result = "miss" then
              .nextTurn board'
                ⟨["RESULT MISS"], ["RESULT MISS"],
                 ("[SPECTATOR] " ++ player_name ++ " MISS！") ::
                   spectatorGridMsgs board'⟩
            else
              .nextTurn board' ⟨[], [], spectatorGridMsgs board'⟩

/-- The turn loop of `run_two_player_game` (battleship.py lines 596-604):
player 1 fires at board 2 and vice versa; `True` from `handle_turn` passes
the turn, a `continue` retries the same turn, `False` (or an escaped
exception) ends the match.  State: `(current_player, board1, board2)`;
`none` means the loop ends. -/
def gameStep (current_player : Nat) (board1 board2 : Board) (ev : TurnEvent) :
    Option (Nat × Board × Board) × TurnMsgs :=
  if current_player = 1 then
    match turnStep "Player 1" board2 ev with
    | .nextTurn b2' m => (some (2, board1, b2'), m)
    | .retry b2' m => (some (1, board1, b2'), m)
    | .matchEnd _ m => (none, m)
    | .connLost _ m => (none, m)
    | .crash _ m => (none, m)
  else
    match turnStep "Player 2" board1 ev with
    | .nextTurn b1' m => (some (1, b1', board2), m)
    | .retry b1' m => (some (2, b1', board2), m)
    | .matchEnd _ m => (none, m)
    | .connLost _ m => (none, m)
    | .crash _ m => (none, m)

theorem fire_at_already_of_result {b : Board} {r c : Nat}
    (h : (b.fire_at r c).1.1 = "already_shot") :
    b.fire_at r c = (("already_shot", none), b) := by
  by_cases hS : getCell b.hidden_grid r c = 'S'
  · rw [fire_at_S hS] at h
    have h' : "hit" = "already_shot" := h
    exact absurd h' (by decide)
  · by_cases hD : getCell b.hidden_grid r c = '.'
    · rw [fire_at_miss hD] at h
      have h' : "miss" = "already_shot" := h
      exact absurd h' (by decide)
    · exact fire_at_already hS hD

/-- C4: the claimed handling — an error reply and a retried turn for every
malformed input line — is evaluated at the input `"FIRE "` (the word FIRE
followed by whitespace only): `guess.split()[1]` raises an uncaught
`IndexError`, so the turn handler crashes with no reply and no retry. -/
theorem fire_without_coordinate_crashes_turn (player_name : String) (b : Board) :
    turnStep player_name b (.line "FIRE ") = .crash b emptyMsgs := rfl

/-- C5 (code evaluation): on a per-turn timeout the handler's first
action, `sess1.send("ERROR: out of time，skip the turn.")`, raises
`TypeError` (the `Packet(sequence_number=...)` keyword against
`Packet.__init__`'s `seq_num` parameter, uncaught by the
`except OSError`), so `handle_turn` crashes: nothing is transmitted to
either player or to the spectators, `return True` is never reached, and
at the loop level the match ends instead of the turn passing to the
opponent.  The boards are untouched by this path (the crash carries the
opponent's board back unchanged). -/
theorem timeout_crashes_before_notifying (player_name : String) (b : Board)
    (cp : Nat) (b1 b2 : Board) :
    turnStep player_name b .timeout = .crash b emptyMsgs ∧
    gameStep cp b1 b2 .timeout = (none, emptyMsgs) := by
  constructor
  · rfl
  · unfold gameStep
    split <;> rfl

/-- C7 (amended): firing at a fresh cell yields `hit` or `miss`, and firing
at that cell again — after any sequence of intervening shots — yields
`("already_shot", none)` with the board unchanged, never a second hit or
miss; and a turn resolving to `already_shot` sends no message to either
player but still broadcasts the updated grid to spectators, and the turn
is consumed (`nextTurn`). -/
theorem fire_twice_already_shot_and_silent_turn :
    (∀ (b : Board) (r c : Nat),
      (getCell b.hidden_grid r c = 'S' ∨ getCell b.hidden_grid r c = '.') →
      ((b.fire_at r c).1.1 = "hit" ∨ (b.fire_at r c).1.1 = "miss") ∧
      ∀ shots : List (Nat × Nat),
        ((fireSeq (b.fire_at r c).2 shots).2).fire_at r c =
          (("already_shot", none), (fireSeq (b.fire_at r c).2 shots).2)) ∧
    (∀ (player_name : String) (b : Board) (guess coord_str : String) (row col : Nat),
      guess ≠ "CONNECTION_ERROR" →
      pyStartsWith (pyLower guess) "quit" = false →
      pyStartsWith (pyLower guess) "fire " = true →
      (pySplit guess).get? 1 = some coord_str →
      parse_coordinate coord_str = .ok (row, col) →
      (b.fire_at row col).1.1 = "already_shot" →
      turnStep player_name b (.line guess) =
        .nextTurn b ⟨[], [], spectatorGridMsgs b⟩) := by
  constructor
  · intro b r c h
    constructor
    · rcases h with h' | h'
      · rw [fire_at_S h']
        left
        rfl
      · rw [fire_at_miss h']
        right
        rfl
    · intro shots
      have hrev := fireSeq_pres_revealed shots (fire_at_reveals h)
      rcases hrev with h' | h'
      · exact fire_at_already (by rw [h']; decide) (by rw [h']; decide)
      · exact fire_at_already (by rw [h']; decide) (by rw [h']; decide)
  · intro player_name b guess coord_str row col h1 h2 h3 h4 h5 h6
    have h6' := fire_at_already_of_result h6
    simp only [turnStep, h1, h2, h3, h4, h5, h6', if_neg, if_false]
    simp


/-- A one-cell board whose single cell is already revealed, for the C7
counterexample and witness. -/
def alreadyBoard : Board := ⟨1, [['X']], [['X']], []⟩

/-- C7 counterexample: the claim's "no spectator broadcast" on
`already_shot` is false — at a concrete board whose cell A1 is already
revealed, the turn still broadcasts the grid (three lines) to
spectators. -/
theorem already_shot_spectator_broadcast_counterexample :
    turnStep "Player 1" alreadyBoard (.line "FIRE A1") =
      .nextTurn alreadyBoard ⟨[], [], ["GRID", "A  X", ""]⟩ ∧
    (["GRID", "A  X", ""] : List String) ≠ [] := by
  exact ⟨by decide, by decide⟩

/-- Witness for the amended C7 theorem at concrete boards. -/
theorem fire_twice_already_shot_and_silent_turn_witness :
    (((Board.init 1).fire_at 0 0).1.1 = "hit" ∨
      ((Board.init 1).fire_at 0 0).1.1 = "miss") ∧
    ((fireSeq ((Board.init 1).fire_at 0 0).2 [(0, 0)]).2).fire_at 0 0 =
      (("already_shot", none), (fireSeq ((Board.init 1).fire_at 0 0).2 [(0, 0)]).2) ∧
    turnStep "Player 1" alreadyBoard (.line "FIRE A1") =
      .nextTurn alreadyBoard ⟨[], [], spectatorGridMsgs alreadyBoard⟩ :=
  have hA := fire_twice_already_shot_and_silent_turn.1 (Board.init 1) 0 0 (Or.inr (by decide))
  ⟨hA.1, hA.2 [(0, 0)],
    fire_twice_already_shot_and_silent_turn.2 "Player 1" alreadyBoard "FIRE A1" "A1" 0 0 (by decide) (by decide)
      (by decide) (by decide) rfl (by decide)⟩

/-! ## `server.py`: disconnect snapshots and reconnection -/

/-- A value stored in a `disconnected[username]` snapshot dict. -/
inductive SnapVal where
  | sessionRef (id : Nat)
  | boardVal (b : Board)
  | natVal (n : Nat)
  | strVal (s : String)
deriving DecidableEq

/-- A snapshot entry is a Python dict, modelled as an association list. -/
abbrev SnapEntry := List (String × SnapVal)

/-- The snapshot `game_session` stores on hard I/O failure (server.py lines
119-128).  Note the keys: the entry holds `"session"`, there is no
`"conn"` key (though the module-level comment at server.py lines 28-30
documents one). -/
def mkDisconnectEntry (sessionId : Nat) (board opponent_board : Board)
    (disconnect_time current_player : Nat) : SnapEntry :=
  [("session", .sessionRef sessionId),
   ("board", .boardVal board),
   ("opponent_board", .boardVal opponent_board),
   ("disconnect_time", .natVal disconnect_time),
   ("current_player", .natVal current_player),
   ("game_state", .strVal "IN_PROGRESS")]

/-- `entry[k]`, `none` standing for `KeyError`. -/
def entryGet (e : SnapEntry) (k : String) : Option SnapVal :=
  e.lookup k

/-- `entry.get(k, d)` for an integer value. -/
def entryGetNat (e : SnapEntry) (k : String) (d : Nat) : Nat :=
  match e.lookup k with
  | some (.natVal n) => n
  | _ => d

/-- `entry[k]` for a board value. -/
def entryBoard (e : SnapEntry) (k : String) : Option Board :=
  match e.lookup k with
  | some (.boardVal b) => some b
  | _ => none

/-- `del disconnected[k]`. -/
def removeKey (l : List (String × SnapEntry)) (k : String) :
    List (String × SnapEntry) :=
  l.filter fun p => !(p.1 == k)

inductive JoinOutcome where
  /-- the within-window reconnection path; `oldConnClosed` records whether
  `entry["conn"].close()` actually ran (the bare `except` swallows the
  `KeyError` when the key is absent). -/
  | reconnected (oldConnClosed : Bool)
  | newPlayer
deriving DecidableEq

/-- The username lookup of `handle_client` (server.py lines 210-236): a
non-expired snapshot makes this connection a reconnection (the snapshot
stays until the game resumes); an expired snapshot is deleted and the
username is a brand-new player. -/
def joinDecision (disconnected : List (String × SnapEntry)) (now : Nat)
    (username : String) : JoinOutcome × List (String × SnapEntry) :=
  match disconnected.lookup username with
  | some entry =>
    if now - entryGetNat entry "disconnect_time" 0 ≤ 60 then
      (.reconnected (entryGet entry "conn").isSome, disconnected)
    else
      (.newPlayer, removeKey disconnected username)
  | none => (.newPlayer, disconnected)

/-- The board/turn restoration at the start of `game_session` (server.py
lines 56-78): fresh boards unless the player has a snapshot, whose-turn
marker from the snapshot (`.get("current_player", default)`), and the
consumed snapshots are deleted. -/
def resumeInit (disconnected : List (String × SnapEntry)) (p1 p2 : String) :
    Board × Board × Nat × List (String × SnapEntry) :=
  let state1 :=
    match disconnected.lookup p1 with
    | some e => ((entryBoard e "board").getD (Board.init BOARD_SIZE),
        entryGetNat e "current_player" 1)
    | none => (Board.init BOARD_SIZE, 1)
  let state2 :=
    match disconnected.lookup p2 with
    | some e => ((entryBoard e "board").getD (Board.init BOARD_SIZE),
        entryGetNat e "current_player" 2)
    | none => (Board.init BOARD_SIZE, state1.2)
  (state1.1, state2.1, state2.2,
    removeKey (removeKey disconnected p1) p2)

/-- C6 (code evaluation): for a snapshot stored by the disconnect handler,
(a) the entry has no `"conn"` key, so the reconnect path's
`entry["conn"].close()` raises `KeyError`, the bare `except` swallows it,
and the old connection is never closed — contrary to the claim; (b) a
join within the 60-unit grace window is treated as a reconnection (the
snapshot is kept for the resume step); (c) a join after the window
deletes the snapshot and is a brand-new player; (d) the resumed game uses
exactly the snapshotted board and whose-turn marker and consumes
(deletes) the snapshot. -/
theorem reconnect_restores_state_but_never_closes_old_conn (sid : Nat) (b ob : Board) (t cur now : Nat)
    (name p2 : String) (hne : p2 ≠ name) :
    entryGet (mkDisconnectEntry sid b ob t cur) "conn" = none ∧
    (now - t ≤ 60 →
      joinDecision [(name, mkDisconnectEntry sid b ob t cur)] now name =
        (.reconnected false, [(name, mkDisconnectEntry sid b ob t cur)])) ∧
    (¬ now - t ≤ 60 →
      joinDecision [(name, mkDisconnectEntry sid b ob t cur)] now name =
        (.newPlayer, [])) ∧
    resumeInit [(name, mkDisconnectEntry sid b ob t cur)] name p2 =
      (b, Board.init BOARD_SIZE, cur, []) := by
  refine ⟨rfl, ?_, ?_, ?_⟩
  · intro h
    simp [joinDecision, mkDisconnectEntry, entryGet, entryGetNat, List.lookup, h]
  · intro h
    simp [joinDecision, mkDisconnectEntry, entryGetNat, List.lookup, h, removeKey]
  · have hb : (p2 == name) = false := beq_eq_false_iff_ne.2 hne
    simp [resumeInit, mkDisconnectEntry, entryBoard, entryGetNat, List.lookup,
      removeKey, hb]

/-- Witness for the C6 theorem at a concrete snapshot. -/
theorem reconnect_restores_state_but_never_closes_old_conn_witness :
    entryGet (mkDisconnectEntry 7 alreadyBoard wboard 100 2) "conn" = none ∧
    (150 - 100 ≤ 60 →
      joinDecision [("alice", mkDisconnectEntry 7 alreadyBoard wboard 100 2)]
          150 "alice" =
        (.reconnected false,
          [("alice", mkDisconnectEntry 7 alreadyBoard wboard 100 2)])) ∧
    (¬ 150 - 100 ≤ 60 →
      joinDecision [("alice", mkDisconnectEntry 7 alreadyBoard wboard 100 2)]
          150 "alice" =
        (.newPlayer, [])) ∧
    resumeInit [("alice", mkDisconnectEntry 7 alreadyBoard wboard 100 2)]
        "alice" "bob" =
      (alreadyBoard, Board.init BOARD_SIZE, 2, []) :=
  reconnect_restores_state_but_never_closes_old_conn 7 alreadyBoard wboard
    100 2 150 "alice" "bob" (by decide)

end BattleshipProto
